import Mathlib

/-!
Shallow embedding of the SenTient Falcon disambiguation service.

Sources embedded:
- `src/src/main.py` — the Flask endpoint `disambiguate` together with its
  helpers `preprocess_context`, `fetch_candidate_descriptions`,
  `extract_inferred_property`;
- `src/src/falcon/preprocessing.py` — `FalconPreprocessor.clean_context_window`;
- `src/src/falcon/pipeline.py` — `FalconPipeline._generate_reason` and
  `FalconPipeline._fetch_descriptions` (the latter is semantically identical
  to `fetch_candidate_descriptions` in `main.py` and is embedded once).

External collaborators (Elasticsearch, the sentence-embedding model) are
modelled as explicit oracle parameters; scores are rationals standing for the
float cosine-similarity values.  Python `list[:k]` slicing, `int()` truncation
and `round(x, 4)` (round-half-to-even) are embedded exactly.
-/

/-- Python list slicing `xs[:k]`: for `k ≥ 0` take the first `k` elements;
for `k < 0` it means `xs[:len(xs)+k]`, i.e. drop `|k|` elements from the end
(empty when `|k| ≥ len xs`). Embeds `candidate_ids[:process_limit]` at
`src/src/main.py:196`. -/
def pySlice {α : Type} (xs : List α) (k : ℤ) : List α :=
  if 0 ≤ k then xs.take k.toNat
  else xs.take (xs.length - (-k).toNat)

/-- Embedding of Python `str.lower()` (ASCII letters, as exercised by the
service): lower every character. -/
def pyLower (s : String) : String :=
  ⟨s.data.map Char.toLower⟩

/-- A character kept by the default cleaning pattern `[^a-zA-Z0-9\s]` of
`FalconPreprocessor` (`src/src/falcon/preprocessing.py:31`): letters, digits
and whitespace survive `clean_regex.sub("", ·)`. -/
def allowedChar (c : Char) : Bool :=
  c.isAlpha || c.isDigit || c.isWhitespace

/-- One token through steps 1–2 of `clean_context_window`
(`src/src/falcon/preprocessing.py:73-79`): lowercase, then delete every
character not matching the keep pattern. -/
def cleanToken (s : String) : String :=
  ⟨(s.data.map Char.toLower).filter allowedChar⟩

/-- `FalconPreprocessor.clean_context_window`
(`src/src/falcon/preprocessing.py:62-91`): per token lowercase, strip
disallowed characters, and keep the result only when it is non-empty and not
a stopword. -/
def clean_context_window (stop : List String) (context_tokens : List String) : List String :=
  context_tokens.filterMap (fun token =>
    if cleanToken token ≠ "" ∧ cleanToken token ∉ stop then some (cleanToken token) else none)

/-- `preprocess_context` (`src/src/main.py:83-92`): keep each raw token
unchanged whenever its lowercased form is not in the loaded stopword set.
Note: unlike `clean_context_window` it neither lowercases the kept token nor
strips punctuation. -/
def preprocess_context (stop : List String) (context_tokens : List String) : List String :=
  context_tokens.filter (fun word => decide (pyLower word ∉ stop))

/-- Outcome of the Elasticsearch property search used by
`extract_inferred_property` (`src/src/main.py:144-152`): a transport error,
an empty hit list, or a top hit carrying an optional `pid` field. -/
inductive PropResult : Type
  | err : PropResult
  | noHits : PropResult
  | hit : Option String → PropResult

/-- `extract_inferred_property` (`src/src/main.py:119-152`): return `none`
when the joined window is blank; otherwise issue one fuzzy search and return
the top hit's `pid` (errors and empty hit lists both yield `none`). -/
def extract_inferred_property (oracle : String → PropResult)
    (context_tokens : List String) : Option String :=
  let window := String.intercalate " " context_tokens
  if window.data.all Char.isWhitespace then none
  else
    match oracle window with
    | PropResult.err => none
    | PropResult.noHits => none
    | PropResult.hit pid => pid

/-- One document of an Elasticsearch `mget` response
(`src/src/main.py:103-113`): its `_id`, the `found` flag, and the optional
`description` / `label` fields of `_source`. -/
structure EsDoc : Type where
  docId : String
  found : Bool
  description : Option String
  label : Option String
deriving DecidableEq

/-- `description`-then-`label` fallback of `fetch_candidate_descriptions`
(`src/src/main.py:108-110`, identical to the `or`-chain at
`src/src/falcon/pipeline.py:152`): prefer a non-empty `description`, else the
`label`, else `""`. -/
def resolveDesc (d : EsDoc) : String :=
  let desc := d.description.getD ""
  if desc ≠ "" then desc else d.label.getD ""

/-- `fetch_candidate_descriptions` (`src/src/main.py:94-117`; semantically
also `FalconPipeline._fetch_descriptions`, `src/src/falcon/pipeline.py:141-158`).
The `mget` response is `some docs` on success and `none` on a transport
error; on error every requested identifier maps to `""`. -/
def fetch_candidate_descriptions (candidate_ids : List String)
    (resp : Option (List EsDoc)) : List (String × String) :=
  match resp with
  | some docs => docs.map (fun d => (d.docId, if d.found then resolveDesc d else ""))
  | none => candidate_ids.map (fun q => (q, ""))

/-- Python `dict` lookup `m.get(k, dflt)` over an association list built by
successive assignments (later assignments win). -/
def dictGet (m : List (String × String)) (k : String) (dflt : String) : String :=
  match m.reverse.find? (fun p => p.1 == k) with
  | some p => p.2
  | none => dflt

/-- Python `int()` on a rational: truncation toward zero, as in
`int(score*100)` (`src/src/main.py:243`, `src/src/falcon/pipeline.py:163-165`). -/
def pyInt (q : ℚ) : ℤ :=
  if 0 ≤ q then ⌊q⌋ else -⌊-q⌋

/-- Round-half-to-even to the nearest integer, the tie rule of Python's
built-in `round`. -/
def roundHalfEven (x : ℚ) : ℤ :=
  if x - ⌊x⌋ < 1/2 then ⌊x⌋
  else if 1/2 < x - ⌊x⌋ then ⌊x⌋ + 1
  else if ⌊x⌋ % 2 = 0 then ⌊x⌋ else ⌊x⌋ + 1

/-- Python `round(x, 4)` (`src/src/main.py:241`,
`src/src/falcon/pipeline.py:95`): round to four decimal digits. -/
def round4 (x : ℚ) : ℚ :=
  (roundHalfEven (x * 10000) : ℚ) / 10000

/-- The inline rationale of the endpoint (`src/src/main.py:243`):
`f"Context match: {int(score*100)}%" if score > 0.4 else "Low context overlap"`. -/
def mainReason (score : ℚ) : String :=
  if score > 4/10 then "Context match: " ++ toString (pyInt (score * 100)) ++ "%"
  else "Low context overlap"

/-- `FalconPipeline._generate_reason` (`src/src/falcon/pipeline.py:160-167`):
three bands with thresholds 0.8 and 0.4. -/
def generate_reason (score : ℚ) : String :=
  if score > 8/10 then "Strong Context Match (" ++ toString (pyInt (score * 100)) ++ "%)"
  else if score > 4/10 then "Moderate Context Overlap (" ++ toString (pyInt (score * 100)) ++ "%)"
  else "Low Context Similarity"

/-- One entry of `ranked_candidates` (`src/src/main.py:239-244`). -/
structure RankedCandidate : Type where
  id : String
  falcon_score : ℚ
  semantic_reason : String
deriving DecidableEq

/-- The read-only process state the endpoint consumes: the
`thresholds.max_candidates` config value and the loaded stopword set
(lowercased lines of the stopword file, `src/src/main.py:65-77`). -/
structure Config : Type where
  max_candidates : ℤ
  stopwords : List String

/-- A parsed request payload (`src/src/main.py:187-191`): `payload.get`
defaults are modelled by `Option` fields (`none` = field absent). -/
structure Request : Type where
  surface_form : Option String
  context_window : List String
  candidates : List String
  limit : Option ℤ

/-- The JSON body of a successful response (`src/src/main.py:249-252`). -/
structure DisambiguationResult : Type where
  inferred_property : Option String
  ranked_candidates : List RankedCandidate
deriving DecidableEq

/-- Observable side effects of one request: the identifier batches sent to
the entity store, and the texts sent to the embedding model (the context
vector A and one vector B per candidate). Both stay empty on the
empty-candidates early return (`src/src/main.py:198-199`). -/
structure Trace : Type where
  descRequests : List (List String)
  encodeCalls : List String
deriving DecidableEq

/-- `candidates_to_process` (`src/src/main.py:191-196`): default the limit to
3, clamp by `min` with `max_candidates`, then Python-slice the candidate
list. -/
def truncatedCandidates (cfg : Config) (req : Request) : List String :=
  pySlice req.candidates (min (req.limit.getD 3) cfg.max_candidates)

/-- `input_text = f"{surface_form} {context_str}"` (`src/src/main.py:204,217`):
surface form, a space, then the stopword-filtered context joined by spaces. -/
def inputTextOf (cfg : Config) (req : Request) : String :=
  req.surface_form.getD "" ++ " " ++
    String.intercalate " " (preprocess_context cfg.stopwords req.context_window)

/-- `text_to_encode = desc if desc else surface_form` (`src/src/main.py:224-230`). -/
def textToEncode (surface_form : String) (dm : List (String × String)) (qid : String) : String :=
  let desc := dictGet dm qid ""
  if desc ≠ "" then desc else surface_form

/-- The loop body at `src/src/main.py:223-244`: encode, cosine score (the
oracle `sim` stands for `cos_sim(encode input_text, encode text).item()`),
clamp into `[0,1]`, round to 4 decimals, attach the inline rationale. -/
def scoreCandidate (sim : String → String → ℚ) (input_text surface_form : String)
    (dm : List (String × String)) (qid : String) : RankedCandidate :=
  let score0 := sim input_text (textToEncode surface_form dm qid)
  let score := max 0 (min 1 score0)
  ⟨qid, round4 score, mainReason score⟩

/-- `ranked_results` before sorting (`src/src/main.py:221-244`): one record
per truncated candidate, in input order. -/
def rankedResults (cfg : Config) (esResp : Option (List EsDoc))
    (sim : String → String → ℚ) (req : Request) : List RankedCandidate :=
  (truncatedCandidates cfg req).map
    (scoreCandidate sim (inputTextOf cfg req) (req.surface_form.getD "")
      (fetch_candidate_descriptions (truncatedCandidates cfg req) esResp))

/-- `ranked_results.sort(key=..., reverse=True)` (`src/src/main.py:247`):
Python's stable sort, descending by `falcon_score`; embedded as the stable
`List.mergeSort` keeping the left element whenever its score is ≥. -/
def sortRanked (rs : List RankedCandidate) : List RankedCandidate :=
  rs.mergeSort (fun a b => decide (b.falcon_score ≤ a.falcon_score))

/-- The `disambiguate` endpoint (`src/src/main.py:173-252`) on a parsed
payload, with its external collaborators passed as oracles: `propOracle` is
the property-index search, `esResp` the entity-store `mget` outcome, `sim`
the embedding/cosine composite. Returns the response body plus the `Trace`
of collaborator calls actually issued. -/
def disambiguate (cfg : Config) (propOracle : String → PropResult)
    (esResp : Option (List EsDoc)) (sim : String → String → ℚ)
    (req : Request) : DisambiguationResult × Trace :=
  let candidates_to_process := truncatedCandidates cfg req
  if candidates_to_process.isEmpty then
    (⟨none, []⟩, ⟨[], []⟩)
  else
    let clean_context := preprocess_context cfg.stopwords req.context_window
    let inferred_pid := extract_inferred_property propOracle clean_context
    let descriptions_map := fetch_candidate_descriptions candidates_to_process esResp
    (⟨inferred_pid, sortRanked (rankedResults cfg esResp sim req)⟩,
     ⟨[candidates_to_process],
      inputTextOf cfg req ::
        candidates_to_process.map (textToEncode (req.surface_form.getD "") descriptions_map)⟩)

/-! Concrete inputs used by witnesses and counterexamples. -/

/-- A small concrete configuration: `max_candidates = 10`, empty stopword set. -/
def exCfg : Config := ⟨10, []⟩

/-- A property oracle whose search always returns an empty hit list. -/
def exProp : String → PropResult := fun _ => PropResult.noHits

/-- A similarity oracle that always returns 0. -/
def exSim0 : String → String → ℚ := fun _ _ => 0

/-- An entity-store oracle that always fails (transport error). -/
def exEs : Option (List EsDoc) := none

/-- A request with an empty candidate list. -/
def exReqNoCands : Request := ⟨some "Paris", ["I", "love"], [], none⟩

/-- A request with a single candidate. -/
def exReqOne : Request := ⟨some "Paris", [], ["Q1"], some 1⟩

/-- A request whose payload omits `surface_form` but carries one candidate. -/
def exReqNoSurface : Request := ⟨none, ["ctx"], ["Q1"], none⟩

/-- A request with three candidates and a negative limit. -/
def exReqNegLimit : Request := ⟨some "x", [], ["a", "b", "c"], some (-1)⟩

/-- A two-candidate request for probing the rationale thresholds. -/
def cex5Req : Request := ⟨some "Paris", [], ["Q1", "Q2"], some 5⟩

/-- Entity-store response giving candidate `Q1` description `"a"` and `Q2`
description `"b"`. -/
def cex5Es : Option (List EsDoc) :=
  some [⟨"Q1", true, some "a", none⟩, ⟨"Q2", true, some "b", none⟩]

/-- Similarity oracle scoring description `"a"` at 0.804 and everything else
at 0.8. -/
def cex5Sim : String → String → ℚ := fun _ t => if t = "a" then 804/1000 else 8/10

/-! Helper lemmas. -/

theorem char_toNat_ofNat_valid (m : Nat) (h : m.isValidChar) : (Char.ofNat m).toNat = m := by
  simp only [Char.ofNat, dif_pos h, Char.ofNatAux, Char.toNat]
  rfl

theorem char_toLower_toLower (c : Char) : c.toLower.toLower = c.toLower := by
  simp only [Char.toLower]
  by_cases h : c.toNat ≥ 65 ∧ c.toNat ≤ 90
  · simp only [if_pos h]
    have hv : (c.toNat + 32).isValidChar := Or.inl (by omega)
    have ht : (Char.ofNat (c.toNat + 32)).toNat = c.toNat + 32 := char_toNat_ofNat_valid _ hv
    rw [if_neg (by rw [ht]; omega)]
  · simp only [if_neg h]

theorem list_map_fixed {α : Type} (f : α → α) (l : List α) (h : ∀ x ∈ l, f x = x) :
    l.map f = l :=
  (List.map_congr_left h).trans (List.map_id l)

theorem cleanToken_lower_fixed (s : String) : pyLower (cleanToken s) = cleanToken s := by
  show String.mk _ = String.mk _
  congr 1
  apply list_map_fixed
  intro c hc
  have hc' : c ∈ s.data.map Char.toLower := (List.mem_filter.mp hc).1
  obtain ⟨d, _, rfl⟩ := List.mem_map.mp hc'
  exact char_toLower_toLower d

theorem cleanToken_idem (s : String) : cleanToken (cleanToken s) = cleanToken s := by
  show String.mk _ = String.mk _
  congr 1
  show ((cleanToken s).data.map Char.toLower).filter allowedChar = (cleanToken s).data
  have hmap : (cleanToken s).data.map Char.toLower = (cleanToken s).data :=
    congrArg String.data (cleanToken_lower_fixed s)
  rw [hmap]
  apply List.filter_eq_self.mpr
  intro c hc
  exact List.of_mem_filter hc

theorem cleanToken_all_allowed (s : String) : (cleanToken s).data.all allowedChar = true := by
  apply List.all_eq_true.mpr
  intro c hc
  exact List.of_mem_filter hc

theorem clean_context_window_invariant (stop ts : List String) :
    ∀ t ∈ clean_context_window stop ts,
      cleanToken t = t ∧ t ≠ "" ∧ t ∉ stop ∧ pyLower t = t ∧ t.data.all allowedChar = true := by
  intro t ht
  unfold clean_context_window at ht
  obtain ⟨token, _, heq⟩ := List.mem_filterMap.mp ht
  by_cases h : cleanToken token ≠ "" ∧ cleanToken token ∉ stop
  · simp only [if_pos h] at heq
    obtain rfl : cleanToken token = t := Option.some.inj heq
    exact ⟨cleanToken_idem token, h.1, h.2, cleanToken_lower_fixed token,
      cleanToken_all_allowed token⟩
  · simp only [if_neg h] at heq
    cases heq

theorem clean_context_window_fixed (stop l : List String)
    (h : ∀ t ∈ l, cleanToken t = t ∧ t ≠ "" ∧ t ∉ stop) :
    clean_context_window stop l = l := by
  induction l with
  | nil => rfl
  | cons a l ih =>
    obtain ⟨ha, hne, hstop⟩ := h a (List.mem_cons_self a l)
    have hfa : (if cleanToken a ≠ "" ∧ cleanToken a ∉ stop
        then some (cleanToken a) else none) = some a := by
      rw [ha, if_pos ⟨hne, hstop⟩]
    show List.filterMap _ (a :: l) = a :: l
    rw [List.filterMap_cons]
    simp only [hfa]
    exact congrArg (a :: ·) (ih (fun t ht => h t (List.mem_cons_of_mem a ht)))

theorem roundHalfEven_nonneg {x : ℚ} (hx : 0 ≤ x) : 0 ≤ roundHalfEven x := by
  unfold roundHalfEven
  have hf : (0:ℤ) ≤ ⌊x⌋ := Int.floor_nonneg.mpr hx
  split_ifs <;> omega

theorem roundHalfEven_le_of_le {x : ℚ} {m : ℤ} (hx : x ≤ m) : roundHalfEven x ≤ m := by
  unfold roundHalfEven
  have hf : ⌊x⌋ ≤ m := by
    have := Int.floor_le_floor hx
    rwa [Int.floor_intCast] at this
  have hfl : (⌊x⌋ : ℚ) ≤ x := Int.floor_le x
  split_ifs with h1 h2 h3
  · exact hf
  · by_contra hc
    push_neg at hc
    have hm : m ≤ ⌊x⌋ := by omega
    have : (m:ℚ) ≤ (⌊x⌋:ℚ) := by exact_mod_cast hm
    have h12 : (1:ℚ)/2 ≤ x - ⌊x⌋ := not_lt.mp h1
    linarith
  · exact hf
  · by_contra hc
    push_neg at hc
    have hm : m ≤ ⌊x⌋ := by omega
    have : (m:ℚ) ≤ (⌊x⌋:ℚ) := by exact_mod_cast hm
    have h12 : (1:ℚ)/2 ≤ x - ⌊x⌋ := not_lt.mp h1
    linarith

theorem round4_bounds {x : ℚ} (h0 : 0 ≤ x) (h1 : x ≤ 1) :
    ∃ n : ℤ, round4 x = (n:ℚ)/10000 ∧ 0 ≤ n ∧ n ≤ 10000 := by
  refine ⟨roundHalfEven (x * 10000), rfl, roundHalfEven_nonneg (by positivity), ?_⟩
  apply roundHalfEven_le_of_le
  push_cast
  linarith

theorem clamp_nonneg (x : ℚ) : 0 ≤ max 0 (min 1 x) := le_max_left _ _

theorem clamp_le_one (x : ℚ) : max 0 (min 1 x) ≤ 1 :=
  max_le (by norm_num) (min_le_left _ _)

theorem mergeSort_pair {α : Type} (le : α → α → Bool) (a b : α) :
    [a, b].mergeSort le = if le a b then [a, b] else [b, a] := by
  rw [List.mergeSort]
  simp [List.splitInTwo, List.splitAt, List.splitAt.go, List.merge]

theorem mergeSort_filter_tied {α : Type} (le : α → α → Bool)
    (htrans : ∀ a b c, le a b → le b c → le a c)
    (htotal : ∀ a b, le a b || le b a)
    (p : α → Bool) (htied : ∀ a b, p a → p b → le a b)
    (l : List α) : (l.mergeSort le).filter p = l.filter p := by
  have hpair : (l.filter p).Pairwise (fun a b => le a b) :=
    List.pairwise_of_forall_mem_list (fun a ha b hb =>
      htied a b (List.of_mem_filter ha) (List.of_mem_filter hb))
  have hsub : List.Sublist (l.filter p) (l.mergeSort le) :=
    List.sublist_mergeSort htrans htotal hpair (List.filter_sublist l)
  have hsub2 : List.Sublist ((l.filter p).filter p) ((l.mergeSort le).filter p) := hsub.filter p
  rw [List.filter_eq_self.mpr (fun a ha => List.of_mem_filter ha)] at hsub2
  have hperm : ((l.mergeSort le).filter p).Perm (l.filter p) := (List.mergeSort_perm l le).filter p
  exact (hsub2.eq_of_length hperm.length_eq.symm).symm

theorem disambiguate_eq (cfg : Config) (pO : String → PropResult)
    (es : Option (List EsDoc)) (sim : String → String → ℚ) (req : Request) :
    disambiguate cfg pO es sim req =
      if (truncatedCandidates cfg req).isEmpty then (⟨none, []⟩, ⟨[], []⟩)
      else
        (⟨extract_inferred_property pO (preprocess_context cfg.stopwords req.context_window),
          sortRanked (rankedResults cfg es sim req)⟩,
         ⟨[truncatedCandidates cfg req],
          inputTextOf cfg req ::
            (truncatedCandidates cfg req).map
              (textToEncode (req.surface_form.getD "")
                (fetch_candidate_descriptions (truncatedCandidates cfg req) es))⟩) := rfl

theorem disambiguate_ranked_length (cfg : Config) (pO : String → PropResult)
    (es : Option (List EsDoc)) (sim : String → String → ℚ) (req : Request) :
    (disambiguate cfg pO es sim req).1.ranked_candidates.length
      = (truncatedCandidates cfg req).length := by
  rw [disambiguate_eq]
  split
  · next h =>
    simp only [List.isEmpty_iff] at h
    simp [h]
  · simp [sortRanked, rankedResults]

/-- C1: for every request whose truncated candidate list is empty, `disambiguate`
returns exactly `{inferred_property: null, ranked_candidates: []}`, for every
context window, and the trace shows no description fetch and no embedding
call (description resolution and scoring are not invoked). -/
theorem C1_empty_candidates_short_circuit (cfg : Config) (pO : String → PropResult)
    (es : Option (List EsDoc)) (sim : String → String → ℚ) (req : Request)
    (h : truncatedCandidates cfg req = []) :
    disambiguate cfg pO es sim req = (⟨none, []⟩, ⟨[], []⟩) := by
  rw [disambiguate_eq, if_pos (by simp [h])]

/-- Witness for C1: a concrete request with an empty candidate list and a
non-empty context window. -/
theorem C1_witness :
    truncatedCandidates exCfg exReqNoCands = [] ∧
    disambiguate exCfg exProp exEs exSim0 exReqNoCands = (⟨none, []⟩, ⟨[], []⟩) :=
  ⟨by decide, C1_empty_candidates_short_circuit exCfg exProp exEs exSim0 exReqNoCands (by decide)⟩

/-- C2: the returned `ranked_candidates` has exactly one entry per element of
the limit-truncated candidate list, and the set of returned identifiers is
exactly the set of truncated input identifiers. -/
theorem C2_ranked_candidates_exact_cover (cfg : Config) (pO : String → PropResult)
    (es : Option (List EsDoc)) (sim : String → String → ℚ) (req : Request) :
    (disambiguate cfg pO es sim req).1.ranked_candidates.length
        = (truncatedCandidates cfg req).length ∧
    ∀ s : String,
      s ∈ (disambiguate cfg pO es sim req).1.ranked_candidates.map RankedCandidate.id
        ↔ s ∈ truncatedCandidates cfg req := by
  refine ⟨disambiguate_ranked_length cfg pO es sim req, fun s => ?_⟩
  rw [disambiguate_eq]
  split
  · next h =>
    simp only [List.isEmpty_iff] at h
    simp [h]
  · simp only [sortRanked]
    rw [List.mem_map]
    constructor
    · rintro ⟨r, hr, rfl⟩
      have hr' := List.mem_mergeSort.mp hr
      simp only [rankedResults, List.mem_map] at hr'
      obtain ⟨q, hq, rfl⟩ := hr'
      exact hq
    · intro hs
      refine ⟨scoreCandidate sim (inputTextOf cfg req) (req.surface_form.getD "")
        (fetch_candidate_descriptions (truncatedCandidates cfg req) es) s, ?_, rfl⟩
      exact List.mem_mergeSort.mpr (List.mem_map_of_mem _ hs)

/-- C8: both compression functions are idempotent — `preprocess_context`
(the endpoint) and `clean_context_window` (the preprocessor) map their own
output to itself. -/
theorem C8_compression_idempotent (stop tokens : List String) :
    preprocess_context stop (preprocess_context stop tokens) = preprocess_context stop tokens ∧
    clean_context_window stop (clean_context_window stop tokens)
      = clean_context_window stop tokens := by
  constructor
  · apply List.filter_eq_self.mpr
    intro a ha
    have ha' : a ∈ List.filter (fun word => decide (pyLower word ∉ stop)) tokens := ha
    simpa using List.of_mem_filter ha'
  · apply clean_context_window_fixed
    intro t ht
    obtain ⟨h1, h2, h3, _, _⟩ := clean_context_window_invariant stop tokens t ht
    exact ⟨h1, h2, h3⟩

/-- C9: the final sort is stable — for every score value `s`, the
subsequence of returned candidates carrying score `s` is exactly, and in the
same order as, the subsequence of the pre-sort list (which lists the
truncated input candidates in input order, as the second conjunct states). -/
theorem C9_sort_stable (cfg : Config) (pO : String → PropResult)
    (es : Option (List EsDoc)) (sim : String → String → ℚ) (req : Request) (s : ℚ) :
    (disambiguate cfg pO es sim req).1.ranked_candidates.filter
        (fun r => decide (r.falcon_score = s))
      = (rankedResults cfg es sim req).filter (fun r => decide (r.falcon_score = s)) ∧
    (rankedResults cfg es sim req).map RankedCandidate.id = truncatedCandidates cfg req := by
  constructor
  · rw [disambiguate_eq]
    split
    · next h =>
      simp only [List.isEmpty_iff] at h
      simp [rankedResults, h]
    · simp only [sortRanked]
      apply mergeSort_filter_tied
      · intro a b c hab hbc
        simp only [decide_eq_true_eq] at hab hbc ⊢
        exact le_trans hbc hab
      · intro a b
        simp only [Bool.or_eq_true, decide_eq_true_eq]
        exact le_total b.falcon_score a.falcon_score
      · intro a b ha hb
        simp only [decide_eq_true_eq] at ha hb ⊢
        rw [ha, hb]
  · simp only [rankedResults, List.map_map]
    exact list_map_fixed _ _ (fun q _ => rfl)

/-- Evaluation of the single-candidate example request: one candidate `Q1`,
failing entity store, similarity 0. -/
theorem disambiguate_exReqOne_eval :
    (disambiguate exCfg exProp exEs exSim0 exReqOne).1.ranked_candidates
      = [⟨"Q1", 0, "Low context overlap"⟩] := by
  have ht : truncatedCandidates exCfg exReqOne = ["Q1"] := by decide
  rw [disambiguate_eq, if_neg (by rw [ht]; decide)]
  show sortRanked (rankedResults exCfg exEs exSim0 exReqOne) = _
  simp only [rankedResults, ht, List.map_cons, List.map_nil, sortRanked,
    List.mergeSort_singleton]
  norm_num [scoreCandidate, textToEncode, dictGet, fetch_candidate_descriptions,
    exSim0, round4, roundHalfEven, mainReason]

/-- C3: every score attached to a returned ranked candidate lies in [0,1]
(the raw cosine value is clamped into the interval before rounding) and is
an integer multiple of 1/10000, i.e. a value rounded to 4 decimal digits. -/
theorem C3_scores_in_unit_interval_rounded (cfg : Config) (pO : String → PropResult)
    (es : Option (List EsDoc)) (sim : String → String → ℚ) (req : Request)
    (r : RankedCandidate)
    (hr : r ∈ (disambiguate cfg pO es sim req).1.ranked_candidates) :
    0 ≤ r.falcon_score ∧ r.falcon_score ≤ 1 ∧
    ∃ n : ℤ, r.falcon_score = (n:ℚ)/10000 ∧ 0 ≤ n ∧ n ≤ 10000 := by
  rw [disambiguate_eq] at hr
  by_cases h : (truncatedCandidates cfg req).isEmpty
  · rw [if_pos h] at hr
    simp at hr
  · rw [if_neg h] at hr
    simp only [sortRanked] at hr
    have hr' := List.mem_mergeSort.mp hr
    simp only [rankedResults, List.mem_map] at hr'
    obtain ⟨q, _, rfl⟩ := hr'
    have h0 := clamp_nonneg (sim (inputTextOf cfg req)
      (textToEncode (req.surface_form.getD "")
        (fetch_candidate_descriptions (truncatedCandidates cfg req) es) q))
    have h1 := clamp_le_one (sim (inputTextOf cfg req)
      (textToEncode (req.surface_form.getD "")
        (fetch_candidate_descriptions (truncatedCandidates cfg req) es) q))
    obtain ⟨n, hn, hn0, hn1⟩ := round4_bounds h0 h1
    have hsc : (scoreCandidate sim (inputTextOf cfg req) (req.surface_form.getD "")
        (fetch_candidate_descriptions (truncatedCandidates cfg req) es) q).falcon_score
        = round4 (max 0 (min 1 (sim (inputTextOf cfg req)
            (textToEncode (req.surface_form.getD "")
              (fetch_candidate_descriptions (truncatedCandidates cfg req) es) q)))) := rfl
    refine ⟨?_, ?_, n, ?_, hn0, hn1⟩
    · rw [hsc, hn]
      apply div_nonneg _ (by norm_num)
      exact_mod_cast hn0
    · rw [hsc, hn]
      rw [div_le_one (by norm_num)]
      exact_mod_cast hn1
    · rw [hsc, hn]

/-- Witness for C3: the candidate returned for the single-candidate example
request satisfies the score bounds. -/
theorem C3_witness :
    0 ≤ (⟨"Q1", 0, "Low context overlap"⟩ : RankedCandidate).falcon_score ∧
    (⟨"Q1", 0, "Low context overlap"⟩ : RankedCandidate).falcon_score ≤ 1 ∧
    ∃ n : ℤ, (⟨"Q1", 0, "Low context overlap"⟩ : RankedCandidate).falcon_score = (n:ℚ)/10000 ∧
      0 ≤ n ∧ n ≤ 10000 :=
  C3_scores_in_unit_interval_rounded exCfg exProp exEs exSim0 exReqOne _
    (by rw [disambiguate_exReqOne_eval]; exact List.mem_singleton.mpr rfl)

/-- Counterexample for C4: the endpoint's compression (`preprocess_context`)
keeps the raw token `"Hello,"` unchanged (the lowercased form is not a
stopword), yet that token is neither lowercase nor free of disallowed
characters — the claimed invariant fails on the code path that serves
requests. -/
theorem C4_counterexample :
    preprocess_context ["the"] ["Hello,"] = ["Hello,"] ∧
    pyLower "Hello," ≠ "Hello," ∧
    ("Hello,".data.all allowedChar) = false := by decide

/-- C4 as amended: the invariant (non-empty, lowercase, only characters of
the cleaning pattern, not a stopword) holds for every token produced by the
preprocessor's `clean_context_window`; the endpoint's `preprocess_context`
only guarantees that each kept token appears unchanged in the input and that
its lowercased form is not in the stopword set. -/
theorem C4_compression_invariant_amended (stop tokens : List String) :
    (∀ t ∈ clean_context_window stop tokens,
        t ≠ "" ∧ pyLower t = t ∧ t.data.all allowedChar = true ∧ t ∉ stop) ∧
    (∀ w ∈ preprocess_context stop tokens, w ∈ tokens ∧ pyLower w ∉ stop) := by
  constructor
  · intro t ht
    obtain ⟨_, h2, h3, h4, h5⟩ := clean_context_window_invariant stop tokens t ht
    exact ⟨h2, h4, h5, h3⟩
  · intro w hw
    have hw' : w ∈ List.filter (fun word => decide (pyLower word ∉ stop)) tokens := hw
    refine ⟨List.mem_of_mem_filter hw', ?_⟩
    simpa using List.of_mem_filter hw'

/-- Witness for C4 (amended): the token `"hello"` produced by
`clean_context_window` from `["Hello,"]` satisfies the full invariant. -/
theorem C4_witness :
    "hello" ≠ "" ∧ pyLower "hello" = "hello" ∧ ("hello".data.all allowedChar) = true ∧
      "hello" ∉ ["the"] :=
  (C4_compression_invariant_amended ["the"] ["Hello,"]).1 "hello" (by decide)

theorem c5_round_q1 : round4 (max 0 (min 1 ((804:ℚ)/1000))) = 201/250 := by
  have hc : max 0 (min 1 ((804:ℚ)/1000)) = 804/1000 := by
    rw [min_eq_right (by norm_num), max_eq_right (by norm_num)]
  rw [hc]
  norm_num [round4, roundHalfEven]

theorem c5_reason_q1 : mainReason (max 0 (min 1 ((804:ℚ)/1000))) = "Context match: 80%" := by
  have hc : max 0 (min 1 ((804:ℚ)/1000)) = 804/1000 := by
    rw [min_eq_right (by norm_num), max_eq_right (by norm_num)]
  rw [hc, mainReason, if_pos (by norm_num)]
  have hp : pyInt ((804:ℚ)/1000 * 100) = 80 := by
    rw [pyInt, if_pos (by norm_num)]
    norm_num
  rw [hp]
  rfl

theorem c5_score_q1 :
    scoreCandidate cex5Sim (inputTextOf exCfg cex5Req) (cex5Req.surface_form.getD "")
      (fetch_candidate_descriptions ["Q1", "Q2"] cex5Es) "Q1"
    = ⟨"Q1", 201/250, "Context match: 80%"⟩ := by
  have hd : textToEncode (cex5Req.surface_form.getD "")
      (fetch_candidate_descriptions ["Q1", "Q2"] cex5Es) "Q1" = "a" := by decide
  show (⟨"Q1", round4 (max 0 (min 1 (cex5Sim (inputTextOf exCfg cex5Req)
      (textToEncode (cex5Req.surface_form.getD "")
        (fetch_candidate_descriptions ["Q1", "Q2"] cex5Es) "Q1")))),
    mainReason (max 0 (min 1 (cex5Sim (inputTextOf exCfg cex5Req)
      (textToEncode (cex5Req.surface_form.getD "")
        (fetch_candidate_descriptions ["Q1", "Q2"] cex5Es) "Q1"))))⟩ : RankedCandidate) = _
  rw [hd]
  have hsim : cex5Sim (inputTextOf exCfg cex5Req) "a" = 804/1000 := by
    simp [cex5Sim]
  rw [hsim, RankedCandidate.mk.injEq]
  exact ⟨rfl, c5_round_q1, c5_reason_q1⟩

theorem c5_round_q2 : round4 (max 0 (min 1 ((8:ℚ)/10))) = 4/5 := by
  have hc : max 0 (min 1 ((8:ℚ)/10)) = 8/10 := by
    rw [min_eq_right (by norm_num), max_eq_right (by norm_num)]
  rw [hc]
  norm_num [round4, roundHalfEven]

theorem c5_reason_q2 : mainReason (max 0 (min 1 ((8:ℚ)/10))) = "Context match: 80%" := by
  have hc : max 0 (min 1 ((8:ℚ)/10)) = 8/10 := by
    rw [min_eq_right (by norm_num), max_eq_right (by norm_num)]
  rw [hc, mainReason, if_pos (by norm_num)]
  have hp : pyInt ((8:ℚ)/10 * 100) = 80 := by
    rw [pyInt, if_pos (by norm_num)]
    norm_num
  rw [hp]
  rfl

theorem c5_score_q2 :
    scoreCandidate cex5Sim (inputTextOf exCfg cex5Req) (cex5Req.surface_form.getD "")
      (fetch_candidate_descriptions ["Q1", "Q2"] cex5Es) "Q2"
    = ⟨"Q2", 4/5, "Context match: 80%"⟩ := by
  have hd : textToEncode (cex5Req.surface_form.getD "")
      (fetch_candidate_descriptions ["Q1", "Q2"] cex5Es) "Q2" = "b" := by decide
  show (⟨"Q2", round4 (max 0 (min 1 (cex5Sim (inputTextOf exCfg cex5Req)
      (textToEncode (cex5Req.surface_form.getD "")
        (fetch_candidate_descriptions ["Q1", "Q2"] cex5Es) "Q2")))),
    mainReason (max 0 (min 1 (cex5Sim (inputTextOf exCfg cex5Req)
      (textToEncode (cex5Req.surface_form.getD "")
        (fetch_candidate_descriptions ["Q1", "Q2"] cex5Es) "Q2"))))⟩ : RankedCandidate) = _
  rw [hd]
  have hsim : cex5Sim (inputTextOf exCfg cex5Req) "b" = 8/10 := by
    simp [cex5Sim]
  rw [hsim, RankedCandidate.mk.injEq]
  exact ⟨rfl, c5_round_q2, c5_reason_q2⟩

/-- Counterexample for C5: in a concrete run of the endpoint, the candidate
scoring 0.804 (strictly above the claimed 0.8 threshold) and the candidate
scoring 0.8 (at most 0.8) receive the very same rationale string
`"Context match: 80%"` — the endpoint has no 0.8 band, refuting the claimed
three-band threshold contract for returned candidates. -/
theorem C5_counterexample :
    (disambiguate exCfg exProp cex5Es cex5Sim cex5Req).1.ranked_candidates
      = [⟨"Q1", 201/250, "Context match: 80%"⟩, ⟨"Q2", 4/5, "Context match: 80%"⟩] ∧
    ((201:ℚ)/250 > 8/10) ∧ ((4:ℚ)/5 ≤ 8/10) := by
  refine ⟨?_, by norm_num, by norm_num⟩
  have ht : truncatedCandidates exCfg cex5Req = ["Q1", "Q2"] := by decide
  rw [disambiguate_eq, if_neg (by rw [ht]; decide)]
  show sortRanked (rankedResults exCfg cex5Es cex5Sim cex5Req) = _
  simp only [rankedResults, ht, List.map_cons, List.map_nil, c5_score_q1, c5_score_q2,
    sortRanked]
  rw [mergeSort_pair]
  rw [if_pos (by norm_num)]

/-- C5 as amended: the three-band thresholds (0.8 and 0.4) govern
`FalconPipeline._generate_reason`; the endpoint's inline rationale has a
single 0.4 threshold (`"Context match: N%"` above it, `"Low context overlap"`
otherwise). -/
theorem C5_rationale_thresholds_amended (s : ℚ) :
    (s > 8/10 → generate_reason s
        = "Strong Context Match (" ++ toString (pyInt (s * 100)) ++ "%)") ∧
    (s > 4/10 → s ≤ 8/10 → generate_reason s
        = "Moderate Context Overlap (" ++ toString (pyInt (s * 100)) ++ "%)") ∧
    (s ≤ 4/10 → generate_reason s = "Low Context Similarity") ∧
    (s > 4/10 → mainReason s = "Context match: " ++ toString (pyInt (s * 100)) ++ "%") ∧
    (s ≤ 4/10 → mainReason s = "Low context overlap") := by
  refine ⟨?_, ?_, ?_, ?_, ?_⟩
  · intro h
    rw [generate_reason, if_pos h]
  · intro h1 h2
    rw [generate_reason, if_neg (not_lt.mpr h2), if_pos h1]
  · intro h
    rw [generate_reason, if_neg (not_lt.mpr (by linarith)), if_neg (not_lt.mpr h)]
  · intro h
    rw [mainReason, if_pos h]
  · intro h
    rw [mainReason, if_neg (not_lt.mpr h)]

/-- Witness for C5 (amended): concrete scores 0.9 and 0.5 produce the
expected rationale strings of the two rationale functions. -/
theorem C5_witness :
    generate_reason (9/10) = "Strong Context Match (90%)" ∧
    mainReason (1/2) = "Context match: 50%" := by
  constructor
  · rw [(C5_rationale_thresholds_amended (9/10)).1 (by norm_num)]
    have hp : pyInt ((9:ℚ)/10 * 100) = 90 := by
      rw [pyInt, if_pos (by norm_num)]
      norm_num
    rw [hp]
    rfl
  · rw [(C5_rationale_thresholds_amended (1/2)).2.2.2.1 (by norm_num)]
    have hp : pyInt ((1:ℚ)/2 * 100) = 50 := by
      rw [pyInt, if_pos (by norm_num)]
      norm_num
    rw [hp]
    rfl

/-- C6: the description resolver covers every requested identifier — under
the entity-store interface contract (one response document per requested
identifier, carrying its identifier), the returned mapping has an entry for
each requested identifier, and on transport failure every requested
identifier is mapped to the empty string. -/
theorem C6_description_resolver_total (qids : List String) (resp : Option (List EsDoc))
    (hcontract : ∀ docs, resp = some docs → docs.map EsDoc.docId = qids) :
    (∀ q ∈ qids, ∃ p ∈ fetch_candidate_descriptions qids resp, p.1 = q) ∧
    (resp = none → fetch_candidate_descriptions qids resp
        = qids.map (fun q => (q, ""))) := by
  constructor
  · intro q hq
    cases resp with
    | none =>
      refine ⟨(q, ""), ?_, rfl⟩
      show (q, "") ∈ qids.map (fun q => (q, ""))
      exact List.mem_map_of_mem _ hq
    | some docs =>
      have hids := hcontract docs rfl
      rw [← hids] at hq
      obtain ⟨d, hd, rfl⟩ := List.mem_map.mp hq
      refine ⟨(d.docId, if d.found then resolveDesc d else ""), ?_, rfl⟩
      show _ ∈ docs.map _
      exact List.mem_map_of_mem _ hd
  · intro h
    subst h
    rfl

/-- Witness for C6: on a failing entity store the single requested
identifier maps to the empty string. -/
theorem C6_witness :
    fetch_candidate_descriptions ["Q1"] none = [("Q1", "")] :=
  (C6_description_resolver_total ["Q1"] none (by intro docs h; cases h)).2 rfl

/-- Counterexample for C7: a concrete request whose payload omits
`surface_form` but carries one candidate is not short-circuited — the trace
records embedding (scorer) calls and a non-empty ranked list is returned. -/
theorem C7_counterexample :
    exReqNoSurface.surface_form = none ∧
    (disambiguate exCfg exProp exEs exSim0 exReqNoSurface).2.encodeCalls ≠ [] ∧
    (disambiguate exCfg exProp exEs exSim0 exReqNoSurface).1.ranked_candidates ≠ [] := by
  refine ⟨rfl, ?_, ?_⟩
  · rw [disambiguate_eq, if_neg (by decide)]
    simp
  · rw [disambiguate_eq, if_neg (by decide)]
    have ht : truncatedCandidates exCfg exReqNoSurface = ["Q1"] := by decide
    show sortRanked (rankedResults exCfg exEs exSim0 exReqNoSurface) ≠ []
    simp [rankedResults, ht, sortRanked]

/-- C7 as amended: a request with missing (hence empty truncated) candidates
short-circuits to the empty result without invoking the scorer, while a
request missing `surface_form` merely defaults the surface form to the empty
string and is processed identically to the same request with
`surface_form = ""` — the scorer is still invoked. -/
theorem C7_missing_surface_form_amended (cfg : Config) (pO : String → PropResult)
    (es : Option (List EsDoc)) (sim : String → String → ℚ) (req : Request) :
    (req.candidates = [] → disambiguate cfg pO es sim req = (⟨none, []⟩, ⟨[], []⟩)) ∧
    (req.surface_form = none →
      disambiguate cfg pO es sim req
        = disambiguate cfg pO es sim ⟨some "", req.context_window, req.candidates, req.limit⟩) := by
  constructor
  · intro h
    have hempty : truncatedCandidates cfg req = [] := by
      rw [truncatedCandidates, h]
      unfold pySlice
      split <;> simp
    rw [disambiguate_eq, if_pos (by simp [hempty])]
  · intro h
    obtain ⟨sf, cw, cs, l⟩ := req
    cases sf with
    | none => rfl
    | some s => cases h

/-- Witness for C7 (amended): concrete requests exercising both branches. -/
theorem C7_witness :
    disambiguate exCfg exProp exEs exSim0 exReqNoCands = (⟨none, []⟩, ⟨[], []⟩) ∧
    disambiguate exCfg exProp exEs exSim0 exReqNoSurface
      = disambiguate exCfg exProp exEs exSim0 ⟨some "", ["ctx"], ["Q1"], none⟩ :=
  ⟨(C7_missing_surface_form_amended exCfg exProp exEs exSim0 exReqNoCands).1 rfl,
   (C7_missing_surface_form_amended exCfg exProp exEs exSim0 exReqNoSurface).2 rfl⟩

/-- C10: an omitted `limit` defaults to 3 so at most `min 3 max_candidates`
candidates are processed; a provided limit is clamped by `min` with
`max_candidates` and passed to the slice without any positivity validation —
a negative limit `l` slices off the last `|l|` candidates. -/
theorem C10_limit_default_and_no_validation (cfg : Config) (pO : String → PropResult)
    (es : Option (List EsDoc)) (sim : String → String → ℚ) (req : Request)
    (hmc : 0 ≤ cfg.max_candidates) :
    (req.limit = none →
      truncatedCandidates cfg req = pySlice req.candidates (min 3 cfg.max_candidates) ∧
      (disambiguate cfg pO es sim req).1.ranked_candidates.length
        ≤ (min 3 cfg.max_candidates).toNat) ∧
    (∀ l : ℤ, req.limit = some l →
      truncatedCandidates cfg req = pySlice req.candidates (min l cfg.max_candidates) ∧
      (l ≤ 0 → truncatedCandidates cfg req = pySlice req.candidates l) ∧
      (l < 0 → (truncatedCandidates cfg req).length
          = req.candidates.length - l.natAbs)) := by
  constructor
  · intro h
    have he : truncatedCandidates cfg req
        = pySlice req.candidates (min 3 cfg.max_candidates) := by
      rw [truncatedCandidates, h]
      rfl
    refine ⟨he, ?_⟩
    rw [disambiguate_ranked_length, he]
    have hk : (0:ℤ) ≤ min 3 cfg.max_candidates := le_min (by norm_num) hmc
    rw [pySlice, if_pos hk]
    exact le_trans (le_of_eq (List.length_take _ _)) (min_le_left _ _)
  · intro l h
    have he : truncatedCandidates cfg req
        = pySlice req.candidates (min l cfg.max_candidates) := by
      rw [truncatedCandidates, h]
      rfl
    refine ⟨he, ?_, ?_⟩
    · intro hl
      rw [he, min_eq_left (le_trans hl hmc)]
    · intro hl
      rw [he, min_eq_left (le_trans (le_of_lt hl) hmc), pySlice, if_neg (not_le.mpr hl)]
      rw [List.length_take]
      omega

/-- Witness for C10: limit `-1` on three candidates is passed straight to the
slice and drops the last candidate — two candidates are processed. -/
theorem C10_witness :
    truncatedCandidates exCfg exReqNegLimit = ["a", "b"] ∧
    (truncatedCandidates exCfg exReqNegLimit).length = 2 := by
  have h := (C10_limit_default_and_no_validation exCfg exProp exEs exSim0 exReqNegLimit
    (by decide)).2 (-1) rfl
  refine ⟨?_, ?_⟩
  · rw [h.1]
    decide
  · rw [h.2.2 (by norm_num)]
    decide
